import Mathlib

/-!
Shallow embedding of `jquery_upload/views.py` (django-jquery-upload).

The embedding mirrors the Python source:
* the Django cache (`UploadStateStore`) is an association list from key
  strings to dynamically typed values (strings or ints);
* the temp-file storage (`ChunkSink`, `UploadTempStorageFileSystem`) is an
  association list from file ids to byte contents;
* Python exceptions (`TypeError` from `int(None)`, `AttributeError` from
  `None._get_size()`, `ValueError` from `int('...')`/tuple unpacking,
  `IndexError` from `split(...)[1]`) are modelled with `Except`; an error
  carries the state and event trace at the moment it is raised, since a
  Django request that dies with an exception keeps its cache/file writes;
* every call into the state store or the chunk sink is logged as an event,
  so frame claims ("never touches the store") are statements about traces;
* `uuid.uuid4()` in `generate_file_id` is modelled by an environment-supplied
  stream of identifiers indexed by a counter held in the state.
-/

/-- Byte strings of the upload bodies, as lists of byte values. -/
abbrev Bytes := List Nat

/-- An uploaded blob from `request.FILES` (Django `UploadedFile`):
`blob_file.name` and its content; `_get_size()`/`.size` is the length. -/
structure Blob where
  name : String
  content : Bytes
deriving DecidableEq, Repr

/-- A dynamically typed value held in the Django cache:
file ids are strings, byte counts are ints. -/
inductive CacheVal where
  | str (s : String)
  | int (n : Int)
deriving DecidableEq, Repr

/-- Python exceptions that the embedded code can raise. -/
inductive Err where
  | typeError
  | attributeError
  | valueError
  | indexError
deriving DecidableEq, Repr

/-- Mutable state: the chunk sink (temp files), the cache, and the
counter feeding the fresh-id stream (models `uuid.uuid4()` draws). -/
structure St where
  sink : List (String × Bytes)
  cache : List (String × CacheVal)
  ctr : Nat
deriving DecidableEq, Repr

/-- Observable events: every invocation of a state-store accessor
(`get_file_id`, `set_file_id`, `forget_about_upload`, `get_uploaded_bytes`,
`update_uploaded_bytes`) and of the chunk sink (append/remove). -/
inductive Ev where
  | getFileId (name : String)
  | setFileId (name fid : String)
  | forgetUpload (name : String)
  | getBytes (fid : String)
  | setBytes (fid : String) (n : Int)
  | sinkAppend (fid : String)
  | sinkRemove (fid : String)
deriving DecidableEq, Repr

/-- `Ev` events that touch the `UploadStateStore` (the cache), as opposed
to the chunk sink. -/
def Ev.isStoreEv : Ev → Bool
  | .getFileId _ => true
  | .setFileId _ _ => true
  | .forgetUpload _ => true
  | .getBytes _ => true
  | .setBytes _ _ => true
  | .sinkAppend _ => false
  | .sinkRemove _ => false

/-- The view's configuration: session key and model name (key material),
whether the view mixes in `PartialUploadCacheMixin`
(`partial_upload_supported()`), the `uuid4` stream for `generate_file_id`,
and whether `create_and_save_object` succeeds (the persistence collaborator
is a black box; `post` catches any `Exception` it raises). -/
structure Env where
  sessionKey : String
  modelName : String
  chunkModeOn : Bool
  freshIds : Nat → String
  persistOk : Bool

/-- Result of an embedded computation: value, final state and event trace,
or an exception together with the state and trace at the raise point. -/
abbrev Res (α : Type) := Except (Err × St × List Ev) (α × St × List Ev)

/-! ### Association-list primitives for the cache and the sink -/

/-- Remove a key from an association list (`cache.delete`, `fs.delete`). -/
def eraseKey {α : Type} (l : List (String × α)) (k : String) : List (String × α) :=
  l.filter (fun p => p.1 ≠ k)

/-- Set a key in an association list (`cache.set`). -/
def setKey {α : Type} (l : List (String × α)) (k : String) (v : α) : List (String × α) :=
  (k, v) :: eraseKey l k

/-- `append_content_to_temp_file`: open the temp file in `ab+` mode and
write; creates the file when absent, appends otherwise. -/
def sinkAppend (sink : List (String × Bytes)) (fid : String) (content : Bytes) :
    List (String × Bytes) :=
  setKey sink fid ((List.lookup fid sink).getD [] ++ content)

/-! ### `PartialUploadCacheMixin` key builders (views.py 485-502) -/

/-- `_stored_name_key`:
`'%s::%s::%s::file_id' % (session_key, model.__name__, expected_file_name)`. -/
def stored_name_key (sessionKey modelName expectedFileName : String) : String :=
  sessionKey ++ "::" ++ modelName ++ "::" ++ expectedFileName ++ "::file_id"

/-- `_byte_count_key`:
`'%s::%s::uploaded_byte_count' % (session_key, file_id)`. -/
def byte_count_key (sessionKey fileId : String) : String :=
  sessionKey ++ "::" ++ fileId ++ "::uploaded_byte_count"

/-! ### `PartialUploadCacheMixin` store accessors -/

/-- `get_file_id`: read the cached file id for a name; `None` when absent.
(A cached string is returned as the id; ids are only ever stored as
strings by `set_file_id`.) -/
def get_file_id_val (env : Env) (st : St) (name : String) : Option String :=
  match List.lookup (stored_name_key env.sessionKey env.modelName name) st.cache with
  | some (CacheVal.str s) => some s
  | _ => none

/-- `set_file_id`: `cache.set(stored_name_key(name), file_id)`. -/
def set_file_id_st (env : Env) (st : St) (name fid : String) : St :=
  { st with cache := setKey st.cache (stored_name_key env.sessionKey env.modelName name) (.str fid) }

/-- `get_uploaded_bytes`: `cache.get(byte_count_key(file_id), 0)`.  A cached
non-int under a count key would make the subsequent `+= these_bytes` raise
`TypeError` in Python; the embedding raises at the read. -/
def get_uploaded_bytes_val : Option CacheVal → Except Err Int
  | none => .ok 0
  | some (.int n) => .ok n
  | some (.str _) => .error .typeError

/-- `update_uploaded_bytes`: `cache.set(byte_count_key(file_id), count)`. -/
def update_uploaded_bytes_st (env : Env) (st : St) (fid : String) (n : Int) : St :=
  { st with cache := setKey st.cache (byte_count_key env.sessionKey fid) (.int n) }

/-- `forget_about_upload(expected_file_name, file_id=None)`: when no id is
given, fetch it with `get_file_id`; drop the stored-name key; when an id is
known, drop its byte-count key too. -/
def forget_about_upload (env : Env) (st : St) (name : String) (fid? : Option String) :
    St × List Ev :=
  let (fid, ev) :=
    match fid? with
    | none => (get_file_id_val env st name, [Ev.forgetUpload name, Ev.getFileId name])
    | some f => (some f, [Ev.forgetUpload name])
  let st1 : St :=
    { st with cache := eraseKey st.cache (stored_name_key env.sessionKey env.modelName name) }
  let st2 : St :=
    match fid with
    | some f => { st1 with cache := eraseKey st1.cache (byte_count_key env.sessionKey f) }
    | none => st1
  (st2, ev)

/-! ### RangeParser: `_get_filesize_from_request_meta`,
`_get_filename_from_request_meta` (views.py 291-316) -/

/-- Python `s.split(sep)` for a one-character separator: split at every
occurrence, keeping empty pieces; the empty string yields `[[]]`. -/
def splitCh (sep : Char) : List Char → List (List Char)
  | [] => [[]]
  | c :: cs =>
    let r := splitCh sep cs
    if c = sep then [] :: r
    else (c :: r.headD []) :: r.tail

/-- Python `s.lstrip(chars)`: drop leading characters drawn from the set. -/
def lstripSet (set : List Char) (l : List Char) : List Char :=
  l.dropWhile (fun c => set.contains c)

/-- Strip leading and trailing spaces (the whitespace tolerance of
Python `int()`). -/
def stripSpaces (l : List Char) : List Char :=
  ((l.dropWhile (fun c => c = ' ')).reverse.dropWhile (fun c => c = ' ')).reverse

/-- Value of a digit string. -/
def digitsToNat (l : List Char) : Nat :=
  l.foldl (fun a c => a * 10 + (c.toNat - Char.toNat '0')) 0

/-- Python `int(s)` on a string: optional surrounding spaces, optional
sign, then a nonempty run of digits; anything else raises `ValueError`. -/
def pyInt (l : List Char) : Except Err Int :=
  match stripSpaces l with
  | [] => .error .valueError
  | c :: ds =>
    if c = '-' then
      if ds ≠ [] ∧ ds.all Char.isDigit then .ok (-(digitsToNat ds : Int)) else .error .valueError
    else if c = '+' then
      if ds ≠ [] ∧ ds.all Char.isDigit then .ok ((digitsToNat ds : Int)) else .error .valueError
    else
      if (c :: ds).all Char.isDigit then .ok ((digitsToNat (c :: ds) : Int))
      else .error .valueError

/-- `_get_filesize_from_request_meta`: on a present, truthy
`HTTP_CONTENT_RANGE` do
`preamble, total = value.split('/')`,
`starting, ending = preamble.lstrip('bytes ').split('-')`,
and return the three `int(...)`s; a falsy or missing header yields
`(None, None, None)`.  A wrong number of parts in either split is the
tuple-unpacking `ValueError`. -/
def parse_content_range (l : List Char) : Except Err (Option Int × Option Int × Option Int) :=
  if l = [] then .ok (none, none, none)
  else
    match splitCh '/' l with
    | [preamble, total] =>
      match splitCh '-' (lstripSet "bytes ".data preamble) with
      | [starting, ending] =>
        match pyInt starting with
        | .error e => .error e
        | .ok a =>
          match pyInt ending with
          | .error e => .error e
          | .ok b =>
            match pyInt total with
            | .error e => .error e
            | .ok c => .ok (some a, some b, some c)
      | _ => .error .valueError
    | _ => .error .valueError

def get_filesize_from_meta (contentRange : Option String) :
    Except Err (Option Int × Option Int × Option Int) :=
  match contentRange with
  | none => .ok (none, none, none)
  | some s => parse_content_range s.data

/-- Split off the part of `l` before the first occurrence of `sep`,
returning it with the remainder after `sep` (or `none` when `sep` does
not occur). -/
def takeUntilSub (sep : List Char) : List Char → (List Char × Option (List Char))
  | [] => ([], none)
  | c :: cs =>
    if sep.isPrefixOf (c :: cs) then ([], some ((c :: cs).drop sep.length))
    else
      let (p, r) := takeUntilSub sep cs
      (c :: p, r)

/-- `_get_filename_from_request_meta`: on a present, truthy
`HTTP_CONTENT_DISPOSITION` take `value.split("filename=")[1]` with all
double quotes removed (`IndexError` when `filename=` does not occur);
otherwise `None`. -/
def get_filename_from_meta (contentDisposition : Option String) :
    Except Err (Option String) :=
  match contentDisposition with
  | none => .ok none
  | some s =>
    if s.data = [] then .ok none
    else
      match (takeUntilSub "filename=".data s.data).2 with
      | none => .error .indexError
      | some rest =>
        .ok (some (String.mk (((takeUntilSub "filename=".data rest).1).filter (fun c => c ≠ '"'))))

/-! ### UploadCoordinator: `_write_upload`, `handle_upload`, `post`
(views.py 104-173, 318-346) -/

/-- Python truthiness of an optional string (`not existing_file_id`,
`... or blob_name`): `None` and the empty string are falsy. -/
def pyStrOptFalsy : Option String → Bool
  | none => true
  | some s => s = ""

/-- Python truthiness of an optional int (`if not expected_byte_count`):
`None` and `0` are falsy. -/
def pyIntOptFalsy : Option Int → Bool
  | none => true
  | some n => n = 0

/-- The finalisation test of `_write_upload` in chunked mode:

    finalised = False
    if (uploaded_bytes_count and expected_byte_count) is not None:
        finalised = int(uploaded_bytes_count) == int(expected_byte_count)

`uploaded_bytes_count and expected_byte_count` is `uploaded_bytes_count`
itself when that is `0` (falsy) and `expected_byte_count` otherwise; so the
comparison runs whenever the count is `0` or the expected total is a
number, and `int(None)` raises `TypeError` when the count is `0` while the
total is `None`. -/
def finalised_check (uploaded : Int) (expected : Option Int) : Except Err Bool :=
  let andVal : Option Int := if uploaded = 0 then some 0 else expected
  match andVal with
  | some _ =>
    match expected with
    | some e => .ok (decide (uploaded = e))
    | none => .error .typeError
  | none => .ok false

/-- `_write_upload(uploaded_file, expected_file_name, expected_byte_count,
file_id=None)`: mint an id when none was passed, append the body to the
temp file, accumulate the byte count (previous count from the store only in
chunked mode, else 0), persist the count in chunked mode, decide
finalisation, and return
`(opened file | None, file_id, finalised, uploaded_bytes_count)`. -/
def write_upload (env : Env) (st : St) (blob : Blob) (_expectedFileName : String)
    (expected : Option Int) (fid? : Option String) :
    Res (Option Bytes × String × Bool × Int) :=
  let (fid, st0) : String × St :=
    match fid? with
    | none => (env.freshIds st.ctr, { st with ctr := st.ctr + 1 })
    | some f => (f, st)
  let st1 : St := { st0 with sink := sinkAppend st0.sink fid blob.content }
  let ev1 : List Ev := [Ev.sinkAppend fid]
  let theseBytes : Int := blob.content.length
  match (if env.chunkModeOn then
           get_uploaded_bytes_val (List.lookup (byte_count_key env.sessionKey fid) st1.cache)
         else .ok 0) with
  | .error e => .error (e, st1, ev1 ++ [Ev.getBytes fid])
  | .ok prev =>
    let ev2 : List Ev := ev1 ++ (if env.chunkModeOn then [Ev.getBytes fid] else [])
    let ubc : Int := prev + theseBytes
    let st2 : St := if env.chunkModeOn then update_uploaded_bytes_st env st1 fid ubc else st1
    let ev3 : List Ev := ev2 ++ (if env.chunkModeOn then [Ev.setBytes fid ubc] else [])
    match (if env.chunkModeOn then finalised_check ubc expected else .ok true) with
    | .error e => .error (e, st2, ev3)
    | .ok fin =>
      if fin then .ok ((List.lookup fid st2.sink, fid, fin, ubc), st2, ev3)
      else .ok ((none, fid, fin, ubc), st2, ev3)

/-- `handle_upload(uploaded_file, expected_file_name, expected_byte_count,
starting_byte_index=None)`: reset on a chunked ingest starting at 0 or
unknown, resolve the existing id in chunked mode, write, remember a newly
minted id, and forget the record once finalised.  Returns
`(opened file | None, finalised, file_id, uploaded_bytes_count)`. -/
def handle_upload (env : Env) (st : St) (blob : Blob) (expectedFileName : String)
    (expected : Option Int) (starting : Option Int) :
    Res (Option Bytes × Bool × String × Int) :=
  let (stA, evA) : St × List Ev :=
    if (starting = some 0 ∨ starting = none) ∧ env.chunkModeOn then
      forget_about_upload env st expectedFileName none
    else (st, [])
  let (existing, evB) : Option String × List Ev :=
    if env.chunkModeOn then (get_file_id_val env stA expectedFileName, [Ev.getFileId expectedFileName])
    else (none, [])
  match write_upload env stA blob expectedFileName expected existing with
  | .error (e, st', ev') => .error (e, st', evA ++ evB ++ ev')
  | .ok ((chunkedFile, fid, fin, ubc), stW, evW) =>
    let (stC, evC) : St × List Ev :=
      if (pyStrOptFalsy existing ∧ fid ≠ "") ∧ env.chunkModeOn then
        (set_file_id_st env stW expectedFileName fid, [Ev.setFileId expectedFileName fid])
      else (stW, [])
    let (stD, evD) : St × List Ev :=
      if fin ∧ env.chunkModeOn then forget_about_upload env stC expectedFileName (some fid)
      else (stC, [])
    .ok ((chunkedFile, fin, fid, ubc), stD, evA ++ evB ++ evW ++ evC ++ evD)

/-- The JSON bodies `post` can render: partial progress `{'size': n}`,
success `{'files': [{'name': ..., 'size': ...}]}`, and the per-file error
list `[{'name': ..., 'error': 'ERROR SAVING FILE'}]`. -/
inductive Resp where
  | progress (size : Int)
  | files (name : String) (size : Nat)
  | fileError (name msg : String)
deriving DecidableEq, Repr

/-- The request headers `post` reads. -/
structure Meta where
  contentRange : Option String
  contentDisposition : Option String
deriving DecidableEq, Repr

/-- `if not expected_byte_count: expected_byte_count = blob_size` — a falsy
parsed total (`None` or `0`) is replaced by the current body length. -/
def effExpected (parsedTotal : Option Int) (blobSize : Int) : Option Int :=
  if pyIntOptFalsy parsedTotal then some blobSize else parsedTotal

/-- The body of `post` from the `handle_upload` call on (views.py 121-134):
report progress when not finalised; otherwise try
`create_and_save_object` then `_remove_temporary_file` and the success
response, and on any exception the per-file error response (the temp file
is not removed on that path). -/
def post_core (env : Env) (st : St) (expectedFileName : String)
    (expected : Option Int) (starting : Option Int) (blob : Blob) :
    Res Resp :=
  match handle_upload env st blob expectedFileName expected starting with
  | .error e => .error e
  | .ok ((chunkedFile, fin, fid, ubc), st', ev') =>
    if fin = false then .ok (.progress ubc, st', ev')
    else
      if env.persistOk then
        let savedSize : Nat := (chunkedFile.getD []).length
        let st'' : St := { st' with sink := eraseKey st'.sink fid }
        .ok (.files expectedFileName savedSize, st'', ev' ++ [Ev.sinkRemove fid])
      else
        .ok (.fileError expectedFileName "ERROR SAVING FILE", st', ev')

/-- `post(request)`: read the blob from `request.FILES['files']`
(`AttributeError` from `None._get_size()` when absent), in chunked mode
parse the range and filename headers (falsy total replaced by the body
length, falsy filename by the blob's own name), in single-shot mode use
offset 0 and the body length, then run the upload and render the
response. -/
def post (env : Env) (st : St) (files : Option Blob) (meta : Meta) : Res Resp :=
  match files with
  | none => .error (.attributeError, st, [])
  | some blob =>
    let blobSize : Int := blob.content.length
    match ((if env.chunkModeOn then
             match get_filesize_from_meta meta.contentRange with
             | .error e => .error e
             | .ok (starting, _ending, parsedTotal) =>
               match get_filename_from_meta meta.contentDisposition with
               | .error e => .error e
               | .ok fn =>
                 .ok (starting, effExpected parsedTotal blobSize,
                      (if pyStrOptFalsy fn then blob.name else fn.getD blob.name))
           else .ok (some 0, some blobSize, blob.name)) :
           Except Err (Option Int × Option Int × String)) with
    | .error e => .error (e, st, [])
    | .ok (starting, expected, expectedFileName) =>
      post_core env st expectedFileName expected starting blob

/-! ### Concrete instances used by witnesses and counterexamples -/

/-- A chunk-mode view (`PartialUploadCacheMixin` present) whose
`create_and_save_object` succeeds; `uuid4` draws are modelled as a
constant fresh identifier, enough for single-mint scenarios. -/
def envChunk : Env := ⟨"sess", "Doc", true, fun _ => "gid0", true⟩

/-- A chunk-mode view whose `create_and_save_object` raises. -/
def envChunkNoPersist : Env := ⟨"sess", "Doc", true, fun _ => "gid0", false⟩

/-- A single-shot view (`partial_upload_supported()` returns `False`). -/
def envSingle : Env := ⟨"sess", "Doc", false, fun _ => "gid0", true⟩

/-- The empty starting state: no temp files, empty cache. -/
def st0 : St := ⟨[], [], 0⟩

/-! ### Association-list lemmas -/

lemma lookup_eraseKey_self {α : Type} (l : List (String × α)) (k : String) :
    List.lookup k (eraseKey l k) = none := by
  induction l with
  | nil => rfl
  | cons p t ih =>
    obtain ⟨a, b⟩ := p
    by_cases h : a = k
    · simpa [eraseKey, List.filter_cons, h] using ih
    · have hb : (k == a) = false := beq_eq_false_iff_ne.mpr (Ne.symm h)
      simpa [eraseKey, List.filter_cons, h, List.lookup_cons, hb] using ih

lemma lookup_eraseKey_ne {α : Type} (l : List (String × α)) (k k' : String) (h : k' ≠ k) :
    List.lookup k' (eraseKey l k) = List.lookup k' l := by
  induction l with
  | nil => rfl
  | cons p t ih =>
    obtain ⟨a, b⟩ := p
    by_cases hk : a = k
    · have hb : (k' == a) = false := beq_eq_false_iff_ne.mpr (by rw [hk]; exact h)
      have hb' : (k' == k) = false := beq_eq_false_iff_ne.mpr h
      simpa [eraseKey, List.filter_cons, hk, List.lookup_cons, hb, hb'] using ih
    · by_cases hk' : k' = a
      · have hb : (k' == a) = true := beq_iff_eq.mpr hk'
        simp [eraseKey, List.filter_cons, hk, List.lookup_cons, hb]
      · have hb : (k' == a) = false := beq_eq_false_iff_ne.mpr hk'
        simpa [eraseKey, List.filter_cons, hk, List.lookup_cons, hb] using ih

lemma lookup_setKey_self {α : Type} (l : List (String × α)) (k : String) (v : α) :
    List.lookup k (setKey l k v) = some v := by
  simp [setKey, List.lookup_cons]

lemma lookup_setKey_ne {α : Type} (l : List (String × α)) (k k' : String) (v : α) (h : k' ≠ k) :
    List.lookup k' (setKey l k v) = List.lookup k' l := by
  have hb : (k' == k) = false := beq_eq_false_iff_ne.mpr h
  simp [setKey, List.lookup_cons, hb]
  exact lookup_eraseKey_ne l k k' h

lemma lookup_sinkAppend_self (sink : List (String × Bytes)) (fid : String) (c : Bytes) :
    List.lookup fid (sinkAppend sink fid c) = some ((List.lookup fid sink).getD [] ++ c) := by
  simp [sinkAppend, lookup_setKey_self]

/-! ### Parser lemmas -/

lemma splitCh_sepFree (sep : Char) (l : List Char) (h : sep ∉ l) : splitCh sep l = [l] := by
  induction l with
  | nil => rfl
  | cons c cs ih =>
    have hc : ¬ c = sep := fun e => h (e ▸ List.mem_cons_self c cs)
    have hcs : sep ∉ cs := fun m => h (List.mem_cons_of_mem c m)
    simp [splitCh, hc, ih hcs]

lemma splitCh_append (sep : Char) (xs ys : List Char) (h : sep ∉ xs) :
    splitCh sep (xs ++ sep :: ys) = xs :: splitCh sep ys := by
  induction xs with
  | nil => simp [splitCh]
  | cons c cs ih =>
    have hc : ¬ c = sep := fun e => h (e ▸ List.mem_cons_self c cs)
    have hcs : sep ∉ cs := fun m => h (List.mem_cons_of_mem c m)
    simp [splitCh, hc, ih hcs]

lemma dropWhile_append_sat (p : Char → Bool) (xs ys : List Char)
    (h : ∀ c ∈ xs, p c = true) :
    List.dropWhile p (xs ++ ys) = List.dropWhile p ys := by
  induction xs with
  | nil => rfl
  | cons c cs ih =>
    have hc : p c = true := h c (List.mem_cons_self c cs)
    simp only [List.cons_append, List.dropWhile_cons, hc, if_true]
    exact ih (fun d hd => h d (List.mem_cons_of_mem c hd))

lemma dropWhile_cons_false (p : Char → Bool) (c : Char) (l : List Char) (h : p c = false) :
    List.dropWhile p (c :: l) = c :: l := by
  simp [List.dropWhile_cons, h]

lemma dropWhile_all_false (p : Char → Bool) (l : List Char) (h : ∀ c ∈ l, p c = false) :
    List.dropWhile p l = l := by
  cases l with
  | nil => rfl
  | cons c cs => exact dropWhile_cons_false p c cs (h c (List.mem_cons_self c cs))

lemma digit_notin_stripset (c : Char) (h : c.isDigit = true) :
    ("bytes ".data.contains c) = false := by
  by_contra hc
  have h1 : List.elem c "bytes ".data = true := Bool.not_eq_false _ |>.mp hc
  have : c ∈ "bytes ".data := List.elem_iff.mp h1
  fin_cases this <;> simp_all

lemma all_digits_mem (l : List Char) (h : l.all Char.isDigit = true) :
    ∀ c ∈ l, c.isDigit = true := by
  intro c hc
  exact List.all_eq_true.mp h c hc

lemma nondigit_notin (c0 : Char) (l : List Char) (h : l.all Char.isDigit = true)
    (h0 : c0.isDigit = false) : c0 ∉ l := by
  intro hm
  have := all_digits_mem l h c0 hm
  rw [this] at h0
  simp at h0

lemma stripSpaces_digits (l : List Char) (h : l.all Char.isDigit = true) :
    stripSpaces l = l := by
  have hs : ∀ c ∈ l, (decide (c = ' ')) = false := by
    intro c hc
    have hd := all_digits_mem l h c hc
    have : ¬ c = ' ' := by
      intro e
      rw [e] at hd
      simp at hd
    simpa using this
  have h1 : List.dropWhile (fun c => decide (c = ' ')) l = l := dropWhile_all_false _ l hs
  have h2 : List.dropWhile (fun c => decide (c = ' ')) l.reverse = l.reverse :=
    dropWhile_all_false _ l.reverse (fun c hc => hs c (List.mem_reverse.mp hc))
  simp [stripSpaces, h1, h2]

lemma pyInt_digits (l : List Char) (hne : l ≠ []) (h : l.all Char.isDigit = true) :
    pyInt l = .ok ((digitsToNat l : Int)) := by
  cases hl : l with
  | nil => exact absurd hl hne
  | cons c ds =>
    subst hl
    have hc : c.isDigit = true := all_digits_mem _ h c (List.mem_cons_self c ds)
    have hminus : ¬ c = '-' := by
      intro e
      rw [e] at hc
      simp at hc
    have hplus : ¬ c = '+' := by
      intro e
      rw [e] at hc
      simp at hc
    simp [pyInt, stripSpaces_digits _ h, hminus, hplus, h]

lemma parse_wellformed_data (a b c : List Char)
    (ha : a ≠ []) (hb : b ≠ []) (hc : c ≠ [])
    (da : a.all Char.isDigit = true) (db : b.all Char.isDigit = true)
    (dc : c.all Char.isDigit = true) :
    parse_content_range ("bytes ".data ++ a ++ '-' :: b ++ '/' :: c) =
      .ok (some ((digitsToNat a : Int)), some ((digitsToNat b : Int)),
           some ((digitsToNat c : Int))) := by
  have hslash_a : '/' ∉ a := nondigit_notin '/' a da (by decide)
  have hslash_b : '/' ∉ b := nondigit_notin '/' b db (by decide)
  have hslash_c : '/' ∉ c := nondigit_notin '/' c dc (by decide)
  have hdash_a : '-' ∉ a := nondigit_notin '-' a da (by decide)
  have hdash_b : '-' ∉ b := nondigit_notin '-' b db (by decide)
  have hslash_pre : '/' ∉ ("bytes ".data ++ a ++ '-' :: b) := by
    intro hm
    rcases List.mem_append.mp hm with hm' | hm'
    · rcases List.mem_append.mp hm' with hm'' | hm''
      · revert hm''
        decide
      · exact hslash_a hm''
    · rcases List.mem_cons.mp hm' with hm'' | hm''
      · exact absurd hm'' (by decide)
      · exact hslash_b hm''
  have hne_data : ("bytes ".data ++ a ++ '-' :: b ++ '/' :: c) ≠ [] := by
    intro e
    have := congrArg List.length e
    simp at this
  have hassoc : "bytes ".data ++ a ++ '-' :: b ++ '/' :: c =
      ("bytes ".data ++ a ++ '-' :: b) ++ '/' :: c := by
    simp [List.append_assoc]
  have hsplit1 : splitCh '/' ("bytes ".data ++ a ++ '-' :: b ++ '/' :: c) =
      [("bytes ".data ++ a ++ '-' :: b), c] := by
    rw [hassoc, splitCh_append '/' _ c hslash_pre, splitCh_sepFree '/' c hslash_c]
  have hstrip : lstripSet "bytes ".data ("bytes ".data ++ a ++ '-' :: b) =
      a ++ '-' :: b := by
    unfold lstripSet
    rw [List.append_assoc]
    rw [dropWhile_append_sat _ "bytes ".data (a ++ '-' :: b) (by decide)]
    cases haa : a with
    | nil => exact absurd haa ha
    | cons c0 a' =>
      have hd0 : c0.isDigit = true := by
        apply all_digits_mem a da
        rw [haa]
        exact List.mem_cons_self c0 a'
      have : ("bytes ".data.contains c0) = false := digit_notin_stripset c0 hd0
      simp only [List.cons_append]
      exact dropWhile_cons_false _ c0 (a' ++ '-' :: b) this
  have hsplit2 : splitCh '-' (a ++ '-' :: b) = [a, b] := by
    rw [splitCh_append '-' a b hdash_a, splitCh_sepFree '-' b hdash_b]
  unfold parse_content_range
  rw [if_neg hne_data, hsplit1]
  simp only [hstrip, hsplit2, pyInt_digits a ha da, pyInt_digits b hb db, pyInt_digits c hc dc]

/-! ### Key-string lemmas (scope separation) -/

lemma takeWhile_colonFree (xs ys : List Char) (h : ∀ ch ∈ xs, ¬ ch = ':') :
    List.takeWhile (fun ch => ch ≠ ':') (xs ++ ':' :: ys) = xs := by
  induction xs with
  | nil => simp [List.takeWhile_cons]
  | cons c cs ih =>
    have hc : ¬ c = ':' := h c (List.mem_cons_self c cs)
    have ih' := ih (fun d hd => h d (List.mem_cons_of_mem c hd))
    simp only [ne_eq, decide_not] at ih' ⊢
    simp [List.takeWhile_cons, hc, ih']

lemma stored_name_key_data (s m n : String) :
    (stored_name_key s m n).data =
      s.data ++ ':' :: ':' :: (m.data ++ ':' :: ':' :: (n.data ++ "::file_id".data)) := by
  simp [stored_name_key, String.data_append, List.append_assoc]

lemma byte_count_key_data (s f : String) :
    (byte_count_key s f).data =
      s.data ++ ':' :: ':' :: (f.data ++ "::uploaded_byte_count".data) := by
  simp [byte_count_key, String.data_append, List.append_assoc]

lemma stored_name_key_scope (s m n : String) (hs : ∀ ch ∈ s.data, ¬ ch = ':') :
    List.takeWhile (fun ch => ch ≠ ':') (stored_name_key s m n).data = s.data := by
  rw [stored_name_key_data]
  exact takeWhile_colonFree s.data _ hs

lemma byte_count_key_scope (s f : String) (hs : ∀ ch ∈ s.data, ¬ ch = ':') :
    List.takeWhile (fun ch => ch ≠ ':') (byte_count_key s f).data = s.data := by
  rw [byte_count_key_data]
  exact takeWhile_colonFree s.data _ hs

lemma string_eq_of_data_eq (s t : String) (h : s.data = t.data) : s = t := by
  cases s
  cases t
  exact congrArg String.mk h

lemma getLast?_append_right {α : Type} (xs ys : List α) (h : ys ≠ []) :
    (xs ++ ys).getLast? = ys.getLast? := by
  rw [List.getLast?_append]
  cases hy : ys.getLast? with
  | none => exact absurd (List.getLast?_eq_none_iff.mp hy) h
  | some a => rfl

lemma getLast?_cons_of_ne_nil {α : Type} (a : α) (l : List α) (h : l ≠ []) :
    (a :: l).getLast? = l.getLast? := by
  have e : a :: l = [a] ++ l := rfl
  rw [e, getLast?_append_right [a] l h]

lemma stored_name_key_getLast (s m n : String) :
    (stored_name_key s m n).data.getLast? = some 'd' := by
  rw [stored_name_key_data]
  rw [getLast?_append_right _ _ (by simp)]
  rw [getLast?_cons_of_ne_nil _ _ (by simp)]
  rw [getLast?_cons_of_ne_nil _ _ (by simp)]
  rw [getLast?_append_right _ _ (by simp)]
  rw [getLast?_cons_of_ne_nil _ _ (by simp)]
  rw [getLast?_cons_of_ne_nil _ _ (by simp)]
  rw [getLast?_append_right _ _ (by decide)]
  rfl

lemma byte_count_key_getLast (s f : String) :
    (byte_count_key s f).data.getLast? = some 't' := by
  rw [byte_count_key_data]
  rw [getLast?_append_right _ _ (by simp)]
  rw [getLast?_cons_of_ne_nil _ _ (by simp)]
  rw [getLast?_cons_of_ne_nil _ _ (by simp)]
  rw [getLast?_append_right _ _ (by decide)]
  rfl

/-! ### Finalisation-test lemmas -/

lemma finalised_check_some (u T : Int) :
    finalised_check u (some T) = .ok (decide (u = T)) := by
  unfold finalised_check
  split <;> rfl

lemma finalised_check_none_zero : finalised_check 0 none = .error .typeError := by
  rfl

lemma finalised_check_none_nonzero (u : Int) (h : ¬ u = 0) :
    finalised_check u none = .ok false := by
  unfold finalised_check
  simp [h]

/-! ### `write_upload` inversion lemmas -/

lemma write_upload_fin_iff (env : Env) (st : St) (blob : Blob) (name : String) (T : Int)
    (fid? : Option String) (cf : Option Bytes) (fid : String) (fin : Bool) (ubc : Int)
    (st' : St) (ev' : List Ev)
    (hp : env.chunkModeOn = true)
    (h : write_upload env st blob name (some T) fid? = .ok ((cf, fid, fin, ubc), st', ev')) :
    fin = true ↔ ubc = T := by
  simp only [write_upload, hp, if_true] at h
  rcases fid? with _ | f <;>
  · simp only at h
    split at h
    · exact absurd h (by simp)
    · rw [finalised_check_some] at h
      simp only at h
      split at h <;>
      · simp only [Except.ok.injEq, Prod.mk.injEq] at h
        obtain ⟨⟨_, _, hfin, hubc⟩, _, _⟩ := h
        rw [← hfin, ← hubc]
        exact decide_eq_true_iff

lemma write_upload_ok_shape (env : Env) (st : St) (blob : Blob) (name : String)
    (expected : Option Int) (fid? : Option String) (cf : Option Bytes) (fid : String)
    (fin : Bool) (ubc : Int) (st' : St) (ev' : List Ev)
    (h : write_upload env st blob name expected fid? = .ok ((cf, fid, fin, ubc), st', ev')) :
    (cf = if fin = true then some ((List.lookup fid st.sink).getD [] ++ blob.content)
          else none)
    ∧ (∃ prev : Int, ubc = prev + (blob.content.length : Int))
    ∧ st'.sink = sinkAppend st.sink fid blob.content
    ∧ (env.chunkModeOn = false → fin = true ∧ ubc = (blob.content.length : Int)) := by
  by_cases hp : env.chunkModeOn = true
  · simp only [write_upload, hp, if_true] at h
    rcases fid? with _ | f <;>
    · simp only at h
      split at h
      · exact absurd h (by simp)
      · rename_i prev hprev
        split at h
        · exact absurd h (by simp)
        · rename_i fin0 hfc
          split at h <;>
          · rename_i hfin0
            simp only [Except.ok.injEq, Prod.mk.injEq] at h
            obtain ⟨⟨hcf, hfid, hfin, hubc⟩, hst, _⟩ := h
            subst hfid
            constructor
            · rw [← hcf, ← hfin]
              simp [hfin0, update_uploaded_bytes_st, sinkAppend, lookup_setKey_self]
            constructor
            · exact ⟨prev, hubc.symm⟩
            constructor
            · rw [← hst]
              simp [update_uploaded_bytes_st]
            · intro hcontra
              rw [hp] at hcontra
              exact absurd hcontra (by simp)
  · have hp' : env.chunkModeOn = false := by
      simpa using hp
    simp only [write_upload, hp', if_false, Bool.false_eq_true] at h
    rcases fid? with _ | f <;>
    · simp only [if_true, Except.ok.injEq, Prod.mk.injEq] at h
      obtain ⟨⟨hcf, hfid, hfin, hubc⟩, hst, _⟩ := h
      subst hfid
      refine ⟨?_, ⟨0, hubc.symm⟩, ?_, fun _ => ⟨hfin.symm, by rw [← hubc]; ring⟩⟩
      · rw [← hcf, ← hfin]
        simp [sinkAppend, lookup_setKey_self]
      · rw [← hst]

lemma handle_upload_ok_shape (env : Env) (st : St) (blob : Blob) (name : String)
    (expected : Option Int) (starting : Option Int) (cf : Option Bytes) (fin : Bool)
    (fid : String) (ubc : Int) (st' : St) (ev' : List Ev)
    (h : handle_upload env st blob name expected starting = .ok ((cf, fin, fid, ubc), st', ev')) :
    (cf.isSome = fin) ∧ (∃ prev : Int, ubc = prev + (blob.content.length : Int)) := by
  simp only [handle_upload] at h
  split at h
  · exact absurd h (by simp)
  · rename_i cfW fidW finW ubcW stW evW heq
    simp only [Except.ok.injEq, Prod.mk.injEq] at h
    obtain ⟨⟨hcf, hfin, hfid, hubc⟩, _, _⟩ := h
    obtain ⟨hcfEq, hprev, _, _⟩ :=
      write_upload_ok_shape _ _ _ _ _ _ _ _ _ _ _ _ heq
    constructor
    · rw [← hcf, ← hfin, hcfEq]
      cases finW <;> simp
    · obtain ⟨prev, hp2⟩ := hprev
      exact ⟨prev, by rw [← hubc, hp2]⟩

/-! ### `forget_about_upload` lemmas -/

lemma lookup_eraseKey_none_pres {α : Type} (l : List (String × α)) (k k' : String)
    (h : List.lookup k l = none) : List.lookup k (eraseKey l k') = none := by
  by_cases e : k = k'
  · rw [e]
    exact lookup_eraseKey_self l k'
  · rw [lookup_eraseKey_ne l k' k e]
    exact h

lemma forget_sink (env : Env) (st : St) (name : String) (fid? : Option String) :
    (forget_about_upload env st name fid?).1.sink = st.sink := by
  unfold forget_about_upload
  rcases fid? with _ | f
  · cases get_file_id_val env st name <;> rfl
  · rfl

lemma forget_ctr (env : Env) (st : St) (name : String) (fid? : Option String) :
    (forget_about_upload env st name fid?).1.ctr = st.ctr := by
  unfold forget_about_upload
  rcases fid? with _ | f
  · cases get_file_id_val env st name <;> rfl
  · rfl

lemma forget_cache_none_pres (env : Env) (st : St) (name : String) (fid? : Option String)
    (k : String) (h : List.lookup k st.cache = none) :
    List.lookup k (forget_about_upload env st name fid?).1.cache = none := by
  unfold forget_about_upload
  rcases fid? with _ | f
  · cases get_file_id_val env st name
    · exact lookup_eraseKey_none_pres _ _ _ h
    · exact lookup_eraseKey_none_pres _ _ _ (lookup_eraseKey_none_pres _ _ _ h)
  · exact lookup_eraseKey_none_pres _ _ _ (lookup_eraseKey_none_pres _ _ _ h)

lemma forget_stored_none (env : Env) (st : St) (name : String) (fid? : Option String) :
    List.lookup (stored_name_key env.sessionKey env.modelName name)
      (forget_about_upload env st name fid?).1.cache = none := by
  unfold forget_about_upload
  rcases fid? with _ | f
  · cases get_file_id_val env st name <;> simp only
    · exact lookup_eraseKey_self _ _
    · exact lookup_eraseKey_none_pres _ _ _ (lookup_eraseKey_self _ _)
  · exact lookup_eraseKey_none_pres _ _ _ (lookup_eraseKey_self _ _)

lemma forget_ev_some (env : Env) (st : St) (name : String) (f : String) :
    (forget_about_upload env st name (some f)).2 = [Ev.forgetUpload name] := by
  rfl

lemma get_file_id_after_forget (env : Env) (st : St) (name : String) (fid? : Option String) :
    get_file_id_val env (forget_about_upload env st name fid?).1 name = none := by
  unfold get_file_id_val
  rw [forget_stored_none]

lemma forget_some_byte_none (env : Env) (st : St) (name : String) (f : String) :
    List.lookup (byte_count_key env.sessionKey f)
      (forget_about_upload env st name (some f)).1.cache = none := by
  unfold forget_about_upload
  exact lookup_eraseKey_self _ _

/-! ### Forward evaluation: a fresh chunked write that exactly meets the
declared total -/

lemma write_upload_fresh_fin (env : Env) (st : St) (blob : Blob) (name : String)
    (hp : env.chunkModeOn = true)
    (hfresh : List.lookup (byte_count_key env.sessionKey (env.freshIds st.ctr)) st.cache = none) :
    write_upload env st blob name (some (blob.content.length : Int)) none =
      .ok ((some ((List.lookup (env.freshIds st.ctr) st.sink).getD [] ++ blob.content),
            env.freshIds st.ctr, true, (blob.content.length : Int)),
           { sink := sinkAppend st.sink (env.freshIds st.ctr) blob.content,
             cache := setKey st.cache (byte_count_key env.sessionKey (env.freshIds st.ctr))
                        (.int (blob.content.length : Int)),
             ctr := st.ctr + 1 },
           [Ev.sinkAppend (env.freshIds st.ctr), Ev.getBytes (env.freshIds st.ctr),
            Ev.setBytes (env.freshIds st.ctr) (blob.content.length : Int)]) := by
  simp only [write_upload, hp, if_true, hfresh, get_uploaded_bytes_val, zero_add,
    finalised_check_some, update_uploaded_bytes_st, lookup_sinkAppend_self]
  simp

/-- Forward evaluation of `handle_upload` for a chunked ingest at offset 0
(or unknown offset) whose single chunk meets the declared total exactly:
the old record is forgotten, a fresh id is minted, the byte count is the
new chunk's length alone, and the upload finalises. -/
lemma handle_upload_reset_fin (env : Env) (st : St) (blob : Blob) (name : String)
    (starting : Option Int)
    (hp : env.chunkModeOn = true)
    (hstart : starting = some 0 ∨ starting = none)
    (hfresh : List.lookup (byte_count_key env.sessionKey (env.freshIds st.ctr)) st.cache = none)
    (hne0 : env.freshIds st.ctr ≠ "") :
    handle_upload env st blob name (some (blob.content.length : Int)) starting =
      .ok ((some ((List.lookup (env.freshIds st.ctr) st.sink).getD [] ++ blob.content),
            true, env.freshIds st.ctr, (blob.content.length : Int)),
           (forget_about_upload env
              (set_file_id_st env
                { sink := sinkAppend st.sink (env.freshIds st.ctr) blob.content,
                  cache := setKey (forget_about_upload env st name none).1.cache
                             (byte_count_key env.sessionKey (env.freshIds st.ctr))
                             (.int (blob.content.length : Int)),
                  ctr := st.ctr + 1 }
                name (env.freshIds st.ctr))
              name (some (env.freshIds st.ctr))).1,
           (forget_about_upload env st name none).2 ++ [Ev.getFileId name] ++
             [Ev.sinkAppend (env.freshIds st.ctr), Ev.getBytes (env.freshIds st.ctr),
              Ev.setBytes (env.freshIds st.ctr) (blob.content.length : Int)] ++
             [Ev.setFileId name (env.freshIds st.ctr)] ++ [Ev.forgetUpload name]) := by
  have hsink := forget_sink env st name none
  have hctr := forget_ctr env st name none
  have hgf := get_file_id_after_forget env st name none
  have hfr := forget_cache_none_pres env st name none _ hfresh
  have hwrite := write_upload_fresh_fin env (forget_about_upload env st name none).1 blob name hp
    (by rw [hctr]; exact hfr)
  rw [hctr, hsink] at hwrite
  simp only [handle_upload, hp, and_true, if_pos hstart, hgf, if_true, pyStrOptFalsy, true_and]
  rw [hwrite]
  simp only [ne_eq, hne0, not_false_eq_true, if_pos, if_true]
  simp [List.append_assoc, forget_ev_some]

/-- Forward evaluation of `handle_upload` in single-shot mode
(`partial_upload_supported()` false): the state store is never consulted,
the previous byte count is 0, and every call finalises. -/
lemma handle_upload_single_shot (env : Env) (st : St) (blob : Blob) (name : String)
    (expected : Option Int) (starting : Option Int)
    (hp : env.chunkModeOn = false) :
    handle_upload env st blob name expected starting =
      .ok ((some ((List.lookup (env.freshIds st.ctr) st.sink).getD [] ++ blob.content),
            true, env.freshIds st.ctr, (blob.content.length : Int)),
           { sink := sinkAppend st.sink (env.freshIds st.ctr) blob.content,
             cache := st.cache, ctr := st.ctr + 1 },
           [Ev.sinkAppend (env.freshIds st.ctr)]) := by
  simp [handle_upload, write_upload, hp, lookup_sinkAppend_self, zero_add]

lemma pair_if_sink (c : Prop) [Decidable c] (s : St) (name f : String) (env : Env)
    (e1 e2 : List Ev) :
    ((if c then (set_file_id_st env s name f, e1) else (s, e2)).1).sink = s.sink := by
  by_cases h : c <;> simp [h, set_file_id_st]

/-- Inversion: a finalised chunked `handle_upload` leaves the blob in the
sink under the returned id, and no stored-name record in the cache. -/
lemma handle_upload_fin_state (env : Env) (st : St) (blob : Blob) (name : String)
    (expected : Option Int) (starting : Option Int) (cf : Option Bytes)
    (fid : String) (ubc : Int) (st' : St) (ev' : List Ev)
    (hp : env.chunkModeOn = true)
    (h : handle_upload env st blob name expected starting = .ok ((cf, true, fid, ubc), st', ev')) :
    (∃ content, List.lookup fid st'.sink = some content) ∧
    List.lookup (stored_name_key env.sessionKey env.modelName name) st'.cache = none := by
  simp only [handle_upload] at h
  split at h
  · exact absurd h (by simp)
  · rename_i cfW fidW finW ubcW stW evW heq
    simp only [Except.ok.injEq, Prod.mk.injEq] at h
    obtain ⟨⟨hcf, hfin, hfid, hubc⟩, hst, _⟩ := h
    obtain ⟨_, _, hsinkW, _⟩ := write_upload_ok_shape _ _ _ _ _ _ _ _ _ _ _ _ heq
    rw [hfin, hp] at hst
    simp only [and_true, if_pos rfl, true_and, if_true] at hst
    constructor
    · have hs : st'.sink = stW.sink := by
        rw [← hst, forget_sink, pair_if_sink]
      rw [← hfid, hs, hsinkW]
      exact ⟨_, lookup_sinkAppend_self _ _ _⟩
    · rw [← hst]
      exact forget_stored_none _ _ _ _

/-- `post` after a finalised upload when `create_and_save_object` raises:
the per-file error response is returned and the state is exactly as
`handle_upload` left it (in particular `_remove_temporary_file` never
runs). -/
lemma post_core_persist_failure (env : Env) (st : St) (name : String)
    (expected : Option Int) (starting : Option Int) (blob : Blob) (cf : Option Bytes)
    (fid : String) (ubc : Int) (st' : St) (ev' : List Ev)
    (hfail : env.persistOk = false)
    (h : handle_upload env st blob name expected starting = .ok ((cf, true, fid, ubc), st', ev')) :
    post_core env st name expected starting blob =
      .ok (.fileError name "ERROR SAVING FILE", st', ev') := by
  simp only [post_core, h]
  simp [hfail]

/-! ## Claim theorems -/

/-- C2: In chunked mode with both the accumulated count and the declared
total known, `_write_upload` reports `finalised = true` if and only if
`uploaded_bytes_count` equals `expected_byte_count`; any count strictly
below or above the total leaves `finalised = false`. -/
theorem C2_write_upload_finalises_iff (env : Env) (st : St) (blob : Blob) (name : String)
    (T : Int) (fid? : Option String) (cf : Option Bytes) (fid : String) (fin : Bool)
    (ubc : Int) (st' : St) (ev' : List Ev)
    (hp : env.chunkModeOn = true)
    (h : write_upload env st blob name (some T) fid? = .ok ((cf, fid, fin, ubc), st', ev')) :
    fin = true ↔ ubc = T :=
  write_upload_fin_iff env st blob name T fid? cf fid fin ubc st' ev' hp h

theorem C2_witness :
    ((true = true) ↔ ((3 : Int) = 3)) ∧ ((false = true) ↔ ((3 : Int) = 4)) :=
  ⟨C2_write_upload_finalises_iff envChunk st0 (Blob.mk "f" [1, 2, 3]) "f" 3 none
      (some [1, 2, 3]) "gid0" true 3
      ⟨[("gid0", [1, 2, 3])], [("sess::gid0::uploaded_byte_count", CacheVal.int 3)], 1⟩
      [Ev.sinkAppend "gid0", Ev.getBytes "gid0", Ev.setBytes "gid0" 3] rfl rfl,
   C2_write_upload_finalises_iff envChunk st0 (Blob.mk "f" [1, 2, 3]) "f" 4 none
      none "gid0" false 3
      ⟨[("gid0", [1, 2, 3])], [("sess::gid0::uploaded_byte_count", CacheVal.int 3)], 1⟩
      [Ev.sinkAppend "gid0", Ev.getBytes "gid0", Ev.setBytes "gid0" 3] rfl rfl⟩

/-- C3: the claim says a chunked `_write_upload` with an unknown
(`None`) declared total always completes and reports `finalised = false`,
even at an accumulated count of 0.  The code disagrees at count 0: the
guard `(uploaded_bytes_count and expected_byte_count) is not None`
evaluates its left operand when the count is 0 (falsy), `0 is not None`
holds, and `int(None)` then raises `TypeError`.  With any nonzero count
the call indeed returns `finalised = false`. -/
theorem C3_unknown_total_zero_count_raises :
    write_upload envChunk st0 (Blob.mk "f" []) "f" none none =
      .error (.typeError,
              ⟨[("gid0", [])], [("sess::gid0::uploaded_byte_count", CacheVal.int 0)], 1⟩,
              [Ev.sinkAppend "gid0", Ev.getBytes "gid0", Ev.setBytes "gid0" 0])
    ∧ write_upload envChunk st0 (Blob.mk "f" [7]) "f" none none =
      .ok ((none, "gid0", false, 1),
           ⟨[("gid0", [7])], [("sess::gid0::uploaded_byte_count", CacheVal.int 1)], 1⟩,
           [Ev.sinkAppend "gid0", Ev.getBytes "gid0", Ev.setBytes "gid0" 1]) :=
  ⟨rfl, rfl⟩

/-- C5: `_write_upload` and `handle_upload` hand back an opened blob
exactly when `finalised` is true (the first component is `None` whenever
`finalised` is false), and the accumulated `uploaded_bytes_count`
(previous count plus this chunk's length) is returned on every
successful call, finalised or not. -/
theorem C5_blob_handle_iff_finalised (env : Env) (st : St) (blob : Blob) (name : String)
    (expected : Option Int) (fid? : Option String) (starting : Option Int) :
    (∀ cf fid fin ubc st' ev',
        write_upload env st blob name expected fid? = .ok ((cf, fid, fin, ubc), st', ev') →
        cf.isSome = fin ∧ ∃ prev : Int, ubc = prev + (blob.content.length : Int))
    ∧ (∀ cf fin fid ubc st' ev',
        handle_upload env st blob name expected starting = .ok ((cf, fin, fid, ubc), st', ev') →
        cf.isSome = fin ∧ ∃ prev : Int, ubc = prev + (blob.content.length : Int)) := by
  constructor
  · intro cf fid fin ubc st' ev' h
    obtain ⟨hcf, hprev, _, _⟩ := write_upload_ok_shape _ _ _ _ _ _ _ _ _ _ _ _ h
    refine ⟨?_, hprev⟩
    rw [hcf]
    cases fin <;> simp
  · intro cf fin fid ubc st' ev' h
    exact handle_upload_ok_shape _ _ _ _ _ _ _ _ _ _ _ _ h

theorem C5_witness :
    ((some [1, 2, 3] : Option Bytes).isSome = true
      ∧ ∃ prev : Int, (3 : Int) = prev + ((3 : Nat) : Int))
    ∧ ((none : Option Bytes).isSome = false
      ∧ ∃ prev : Int, (3 : Int) = prev + ((3 : Nat) : Int)) :=
  ⟨(C5_blob_handle_iff_finalised envChunk st0 (Blob.mk "f" [1, 2, 3]) "f" (some 3) none
      none).1 (some [1, 2, 3]) "gid0" true 3
      ⟨[("gid0", [1, 2, 3])], [("sess::gid0::uploaded_byte_count", CacheVal.int 3)], 1⟩
      [Ev.sinkAppend "gid0", Ev.getBytes "gid0", Ev.setBytes "gid0" 3] rfl,
   (C5_blob_handle_iff_finalised envChunk st0 (Blob.mk "f" [1, 2, 3]) "f" (some 4) none
      none).1 none "gid0" false 3
      ⟨[("gid0", [1, 2, 3])], [("sess::gid0::uploaded_byte_count", CacheVal.int 3)], 1⟩
      [Ev.sinkAppend "gid0", Ev.getBytes "gid0", Ev.setBytes "gid0" 3] rfl⟩

/-- C6: in single-shot mode (`partial_upload_supported()` false) a call to
`handle_upload` touches only the chunk sink: the cache is returned
unchanged, the event trace holds no state-store event (none of
`get_file_id`, `set_file_id`, `forget_about_upload`, `get_uploaded_bytes`,
`update_uploaded_bytes` is invoked), the previous byte count is treated
as 0 (the count returned is exactly this chunk's length), and the call
finalises. -/
theorem C6_single_shot_frame (env : Env) (st : St) (blob : Blob) (name : String)
    (expected : Option Int) (starting : Option Int)
    (hp : env.chunkModeOn = false) :
    handle_upload env st blob name expected starting =
      .ok ((some ((List.lookup (env.freshIds st.ctr) st.sink).getD [] ++ blob.content),
            true, env.freshIds st.ctr, (blob.content.length : Int)),
           ⟨sinkAppend st.sink (env.freshIds st.ctr) blob.content, st.cache, st.ctr + 1⟩,
           [Ev.sinkAppend (env.freshIds st.ctr)])
    ∧ ∀ e ∈ [Ev.sinkAppend (env.freshIds st.ctr)], e.isStoreEv = false := by
  refine ⟨handle_upload_single_shot env st blob name expected starting hp, ?_⟩
  intro e he
  rw [List.mem_singleton.mp he]
  rfl

theorem C6_witness :
    handle_upload envSingle st0 (Blob.mk "s.txt" [1, 2]) "s.txt" (some 99) (some 7) =
      .ok ((some [1, 2], true, "gid0", 2),
           ⟨[("gid0", [1, 2])], [], 1⟩, [Ev.sinkAppend "gid0"])
    ∧ ∀ e ∈ [Ev.sinkAppend "gid0"], e.isStoreEv = false := by
  have h := C6_single_shot_frame envSingle st0 (Blob.mk "s.txt" [1, 2]) "s.txt"
    (some 99) (some 7) rfl
  exact h

/-- C8: a request carrying no `files` entry fails before any state is
touched: `post` raises (`AttributeError` from calling `_get_size()` on
`None`) with the state returned exactly as given and an empty event
trace — nothing was appended to the chunk sink and the state store was
neither read nor written. -/
theorem C8_missing_files_rejected (env : Env) (st : St) (meta : Meta) :
    post env st none meta = .error (.attributeError, st, []) := rfl

/-- C1 counterexample: the claim says that when `create_and_save_object`
raises after finalisation, `post` still deletes the ChunkSink entry (the
temp file) for the finalised upload id.  At this concrete input the
persistence step fails, the per-file error response is returned, and the
temp file `gid0` is *still present* in the sink — `_remove_temporary_file`
sits inside the `try` after `create_and_save_object` and is skipped when
the latter raises. -/
theorem C1_counterexample :
    post envChunkNoPersist st0 (some (Blob.mk "f.txt" [1, 2, 3]))
        (Meta.mk (some "bytes 0-2/3") none) =
      .ok (Resp.fileError "f.txt" "ERROR SAVING FILE",
           ⟨[("gid0", [1, 2, 3])], [], 1⟩,
           [Ev.forgetUpload "f.txt", Ev.getFileId "f.txt", Ev.getFileId "f.txt",
            Ev.sinkAppend "gid0", Ev.getBytes "gid0", Ev.setBytes "gid0" 3,
            Ev.setFileId "f.txt" "gid0", Ev.forgetUpload "f.txt"])
    ∧ List.lookup "gid0" ([("gid0", [1, 2, 3])] : List (String × Bytes)) = some [1, 2, 3] :=
  ⟨rfl, rfl⟩

/-- C1 (amended): when persistence fails after a finalised chunked upload,
`post` surfaces the per-file error response and leaves the state exactly
as `handle_upload` left it: the ChunkSink entry for the finalised
upload id is *not* deleted (the blob is still present in the sink under
that id), while the UploadRecord is not resurrected (no stored-name key
remains in the cache). -/
theorem C1_persist_failure_keeps_chunksink (env : Env) (st : St) (name : String)
    (expected : Option Int) (starting : Option Int) (blob : Blob) (cf : Option Bytes)
    (fid : String) (ubc : Int) (st' : St) (ev' : List Ev)
    (hp : env.chunkModeOn = true) (hfail : env.persistOk = false)
    (h : handle_upload env st blob name expected starting = .ok ((cf, true, fid, ubc), st', ev')) :
    post_core env st name expected starting blob =
      .ok (.fileError name "ERROR SAVING FILE", st', ev')
    ∧ (∃ content, List.lookup fid st'.sink = some content)
    ∧ List.lookup (stored_name_key env.sessionKey env.modelName name) st'.cache = none :=
  ⟨post_core_persist_failure env st name expected starting blob cf fid ubc st' ev' hfail h,
   (handle_upload_fin_state env st blob name expected starting cf fid ubc st' ev' hp h).1,
   (handle_upload_fin_state env st blob name expected starting cf fid ubc st' ev' hp h).2⟩

theorem C1_witness :
    post_core envChunkNoPersist st0 "f.txt" (some 3) (some 0) (Blob.mk "f.txt" [1, 2, 3]) =
      .ok (.fileError "f.txt" "ERROR SAVING FILE",
           ⟨[("gid0", [1, 2, 3])], [], 1⟩,
           [Ev.forgetUpload "f.txt", Ev.getFileId "f.txt", Ev.getFileId "f.txt",
            Ev.sinkAppend "gid0", Ev.getBytes "gid0", Ev.setBytes "gid0" 3,
            Ev.setFileId "f.txt" "gid0", Ev.forgetUpload "f.txt"])
    ∧ (∃ content, List.lookup "gid0"
        (St.mk [("gid0", [1, 2, 3])] [] 1).sink = some content)
    ∧ List.lookup (stored_name_key envChunkNoPersist.sessionKey
        envChunkNoPersist.modelName "f.txt") (St.mk [("gid0", [1, 2, 3])] [] 1).cache = none :=
  C1_persist_failure_keeps_chunksink envChunkNoPersist st0 "f.txt" (some 3) (some 0)
    (Blob.mk "f.txt" [1, 2, 3]) (some [1, 2, 3]) "gid0" 3
    ⟨[("gid0", [1, 2, 3])], [], 1⟩
    [Ev.forgetUpload "f.txt", Ev.getFileId "f.txt", Ev.getFileId "f.txt",
     Ev.sinkAppend "gid0", Ev.getBytes "gid0", Ev.setBytes "gid0" 3,
     Ev.setFileId "f.txt" "gid0", Ev.forgetUpload "f.txt"] rfl rfl rfl

/-- A stored-name key never equals a byte-count key: the former ends in
`d` (`...::file_id`), the latter in `t` (`...::uploaded_byte_count`). -/
lemma stored_ne_byte (s1 m n s2 f : String) :
    stored_name_key s1 m n ≠ byte_count_key s2 f := by
  intro e
  have h := congrArg (fun x : String => x.data.getLast?) e
  simp only at h
  rw [stored_name_key_getLast, byte_count_key_getLast] at h
  exact absurd h (by decide)

lemma forget_none_cache (env : Env) (st : St) (name f : String)
    (h : get_file_id_val env st name = some f) :
    (forget_about_upload env st name none).1.cache =
      eraseKey (eraseKey st.cache (stored_name_key env.sessionKey env.modelName name))
        (byte_count_key env.sessionKey f) := by
  unfold forget_about_upload
  rw [h]

lemma forget_some_cache (env : Env) (st : St) (name f : String) :
    (forget_about_upload env st name (some f)).1.cache =
      eraseKey (eraseKey st.cache (stored_name_key env.sessionKey env.modelName name))
        (byte_count_key env.sessionKey f) := rfl

/-- C4: a chunked ingest whose starting offset is 0 or unknown first
discards the UploadRecord and ByteCounter of the in-progress upload for
that name, mints a fresh upload id, and counts only the new attempt's
bytes; when the new chunk is full-size it finalises with that count, and
the final state holds neither the stored-name record nor the old id's
byte counter. -/
theorem C4_restart_from_zero (env : Env) (st : St) (blob : Blob) (name : String)
    (T : Int) (starting : Option Int) (oldId : String)
    (hp : env.chunkModeOn = true)
    (hstart : starting = some 0 ∨ starting = none)
    (hold : List.lookup (stored_name_key env.sessionKey env.modelName name) st.cache =
      some (.str oldId))
    (hfreshK : List.lookup (byte_count_key env.sessionKey (env.freshIds st.ctr)) st.cache = none)
    (hne0 : env.freshIds st.ctr ≠ "")
    (hkne : byte_count_key env.sessionKey (env.freshIds st.ctr) ≠
      byte_count_key env.sessionKey oldId)
    (hT : (blob.content.length : Int) = T) :
    ∃ cf st' ev',
      handle_upload env st blob name (some T) starting =
        .ok ((cf, true, env.freshIds st.ctr, T), st', ev')
      ∧ List.lookup (stored_name_key env.sessionKey env.modelName name) st'.cache = none
      ∧ List.lookup (byte_count_key env.sessionKey oldId) st'.cache = none := by
  subst hT
  have hgfv : get_file_id_val env st name = some oldId := by
    unfold get_file_id_val
    rw [hold]
  have hres := handle_upload_reset_fin env st blob name starting hp hstart hfreshK hne0
  refine ⟨_, _, _, hres, forget_stored_none _ _ _ _, ?_⟩
  rw [forget_some_cache]
  apply lookup_eraseKey_none_pres
  apply lookup_eraseKey_none_pres
  show List.lookup _ (setKey _ (stored_name_key env.sessionKey env.modelName name) _) = none
  rw [lookup_setKey_ne _ _ _ _ (Ne.symm (stored_ne_byte _ _ _ _ _))]
  show List.lookup _ (setKey _ (byte_count_key env.sessionKey (env.freshIds st.ctr)) _) = none
  rw [lookup_setKey_ne _ _ _ _ (Ne.symm hkne)]
  rw [forget_none_cache env st name oldId hgfv]
  exact lookup_eraseKey_self _ _

theorem C4_witness :
    ∃ cf st' ev',
      handle_upload envChunk
          ⟨[], [("sess::Doc::d.txt::file_id", CacheVal.str "old"),
                ("sess::old::uploaded_byte_count", CacheVal.int 5)], 0⟩
          (Blob.mk "d.txt" [1, 2]) "d.txt" (some 2) (some 0) =
        .ok ((cf, true, "gid0", 2), st', ev')
      ∧ List.lookup (stored_name_key "sess" "Doc" "d.txt") st'.cache = none
      ∧ List.lookup (byte_count_key "sess" "old") st'.cache = none :=
  C4_restart_from_zero envChunk
    ⟨[], [("sess::Doc::d.txt::file_id", CacheVal.str "old"),
          ("sess::old::uploaded_byte_count", CacheVal.int 5)], 0⟩
    (Blob.mk "d.txt" [1, 2]) "d.txt" 2 (some 0) "old" rfl (Or.inl rfl)
    (by decide) (by decide) (by decide) (by decide) rfl

/-- C7 counterexample: the claim says a present but malformed range
header is always a hard parse failure and never a silent fallback to the
absent-header result; but a *present empty* header value is falsy in
Python (`if http_content_range:`), so it yields `(None, None, None)` with
no error — exactly the absent-header result. -/
theorem C7_counterexample :
    get_filesize_from_meta (some "") = .ok (none, none, none)
    ∧ get_filesize_from_meta none = .ok (none, none, none) :=
  ⟨rfl, rfl⟩

/-- C7 (amended): for every header of the exact form
`bytes <start>-<end>/<total>` with nonempty digit fields the parser
returns the three integers; an absent header yields
`(None, None, None)`; a present but *empty* header value silently falls
back to the absent-header result instead of failing; other malformed
values such as one missing the `/<total>` part raise a hard
`ValueError`. -/
theorem C7_range_parse_behaviour (a b c : List Char)
    (ha : a ≠ []) (hb : b ≠ []) (hc : c ≠ [])
    (da : a.all Char.isDigit = true) (db : b.all Char.isDigit = true)
    (dc : c.all Char.isDigit = true) :
    get_filesize_from_meta
        (some (String.mk ("bytes ".data ++ a ++ '-' :: b ++ '/' :: c))) =
      .ok (some ((digitsToNat a : Int)), some ((digitsToNat b : Int)),
           some ((digitsToNat c : Int)))
    ∧ get_filesize_from_meta none = .ok (none, none, none)
    ∧ get_filesize_from_meta (some "") = .ok (none, none, none)
    ∧ get_filesize_from_meta (some "bytes 5-9") = .error .valueError := by
  refine ⟨?_, rfl, rfl, rfl⟩
  show parse_content_range ("bytes ".data ++ a ++ '-' :: b ++ '/' :: c) = _
  exact parse_wellformed_data a b c ha hb hc da db dc

theorem C7_witness :
    get_filesize_from_meta (some (String.mk ("bytes ".data ++ ['5'] ++ '-' :: ['9'] ++ '/' :: ['1', '0']))) =
      .ok (some ((digitsToNat ['5'] : Int)), some ((digitsToNat ['9'] : Int)),
           some ((digitsToNat ['1', '0'] : Int)))
    ∧ get_filesize_from_meta none = .ok (none, none, none)
    ∧ get_filesize_from_meta (some "") = .ok (none, none, none)
    ∧ get_filesize_from_meta (some "bytes 5-9") = .error .valueError :=
  C7_range_parse_behaviour ['5'] ['9'] ['1', '0'] (by decide) (by decide) (by decide)
    (by decide) (by decide) (by decide)

/-- C9 counterexample: the claim says keys built from distinct scopes
never collide, but the `::`-joined format is ambiguous when a component
contains the separator: scope `a` with model `b::c` and scope `a::b`
with model `c` produce the same stored-name key. -/
theorem C9_counterexample :
    stored_name_key "a" "b::c" "n" = stored_name_key "a::b" "c" "n"
    ∧ ("a" : String) ≠ "a::b" := by
  exact ⟨rfl, by decide⟩

/-- C9 (amended): stored-name keys are exactly
`<scope>::<model>::<name>::file_id` and byte-count keys exactly
`<scope>::<upload_id>::uploaded_byte_count` (hence stable: they are pure
functions of their components); keys of the two kinds never collide with
each other; and keys built from distinct scopes never collide *provided
the scope strings contain no `:`* (true of Django session keys) — with a
`:` inside a scope the format is ambiguous, as the counterexample
shows. -/
theorem C9_key_format_and_separation :
    (∀ s m n : String, stored_name_key s m n = s ++ "::" ++ m ++ "::" ++ n ++ "::file_id")
    ∧ (∀ s f : String, byte_count_key s f = s ++ "::" ++ f ++ "::uploaded_byte_count")
    ∧ (∀ s1 m1 n1 s2 f2 : String, stored_name_key s1 m1 n1 ≠ byte_count_key s2 f2)
    ∧ (∀ s1 s2 m1 m2 n1 n2 : String, (∀ ch ∈ s1.data, ¬ ch = ':') →
        (∀ ch ∈ s2.data, ¬ ch = ':') → s1 ≠ s2 →
        stored_name_key s1 m1 n1 ≠ stored_name_key s2 m2 n2)
    ∧ (∀ s1 s2 f1 f2 : String, (∀ ch ∈ s1.data, ¬ ch = ':') →
        (∀ ch ∈ s2.data, ¬ ch = ':') → s1 ≠ s2 →
        byte_count_key s1 f1 ≠ byte_count_key s2 f2) := by
  refine ⟨fun s m n => rfl, fun s f => rfl, stored_ne_byte, ?_, ?_⟩
  · intro s1 s2 m1 m2 n1 n2 h1 h2 hne he
    apply hne
    apply string_eq_of_data_eq
    have hd := congrArg String.data he
    have e1 := stored_name_key_scope s1 m1 n1 h1
    have e2 := stored_name_key_scope s2 m2 n2 h2
    rw [← e1, ← e2, hd]
  · intro s1 s2 f1 f2 h1 h2 hne he
    apply hne
    apply string_eq_of_data_eq
    have hd := congrArg String.data he
    have e1 := byte_count_key_scope s1 f1 h1
    have e2 := byte_count_key_scope s2 f2 h2
    rw [← e1, ← e2, hd]

theorem C9_witness :
    stored_name_key "sessA" "Doc" "x.txt" ≠ stored_name_key "sessB" "Doc" "x.txt"
    ∧ stored_name_key "sessA" "Doc" "x.txt" ≠ byte_count_key "sessA" "gid0" := by
  constructor
  · exact C9_key_format_and_separation.2.2.2.1 "sessA" "sessB" "Doc" "Doc" "x.txt" "x.txt"
      (by decide) (by decide) (by decide)
  · exact C9_key_format_and_separation.2.2.1 "sessA" "Doc" "x.txt" "sessA" "gid0"

/-- C10 (implicit): in `post` the guard over the parsed total is Python
falsiness (`if not expected_byte_count`), not a `None` test, so a range
header whose declared total parses to `0` is treated identically to an
absent total: `effExpected` maps both `some 0` and `none` to the body
length, which is what `handle_upload` receives.  Consequently a
zero-total declaration at offset 0 with a non-empty body finalises at
the body length — it neither holds the upload `InProgress` by virtue of
the zero total nor finalises at size 0. -/
theorem C10_zero_total_is_falsy (env : Env) (st : St) (blob : Blob) (meta : Meta)
    (eo : Option Int)
    (hp : env.chunkModeOn = true)
    (hparse : get_filesize_from_meta meta.contentRange = .ok (some 0, eo, some 0))
    (hcd : meta.contentDisposition = none)
    (hne : blob.content ≠ [])
    (hfreshK : List.lookup (byte_count_key env.sessionKey (env.freshIds st.ctr)) st.cache = none)
    (hfreshS : List.lookup (env.freshIds st.ctr) st.sink = none)
    (hne0 : env.freshIds st.ctr ≠ "")
    (hok : env.persistOk = true) :
    effExpected (some 0) (blob.content.length : Int) = some (blob.content.length : Int)
    ∧ effExpected none (blob.content.length : Int) = some (blob.content.length : Int)
    ∧ blob.content.length ≠ 0
    ∧ ∃ st' ev', post env st (some blob) meta =
        .ok (.files blob.name blob.content.length, st', ev') := by
  refine ⟨rfl, rfl, fun h => hne (List.length_eq_zero.mp h), ?_⟩
  have hH := handle_upload_reset_fin env st blob blob.name (some 0) hp (Or.inl rfl) hfreshK hne0
  simp only [post, hp, if_true, hparse, hcd, get_filename_from_meta, pyStrOptFalsy,
    effExpected, pyIntOptFalsy]
  simp only [decide_True, if_true]
  simp only [post_core, hH, hok, if_true]
  rw [if_neg (by simp : ¬ (true = false))]
  simp only [hfreshS, Option.getD_none, List.nil_append, Option.getD_some]
  exact ⟨_, _, rfl⟩

theorem C10_witness :
    effExpected (some 0) ((2 : Nat) : Int) = some ((2 : Nat) : Int)
    ∧ effExpected none ((2 : Nat) : Int) = some ((2 : Nat) : Int)
    ∧ (2 : Nat) ≠ 0
    ∧ ∃ st' ev', post envChunk st0 (some (Blob.mk "c.txt" [1, 2]))
        (Meta.mk (some "bytes 0-1/0") none) =
        .ok (.files "c.txt" 2, st', ev') :=
  C10_zero_total_is_falsy envChunk st0 (Blob.mk "c.txt" [1, 2])
    (Meta.mk (some "bytes 0-1/0") none) (some 1) rfl rfl rfl
    (by decide) rfl rfl (by decide) rfl
